import Mathlib

set_option maxHeartbeats 1000000

/-!
Shallow embedding of the telegraf `systemd_timings` input plugin
(`plugins/inputs/systemd_timings/systemd_timings.go`).

The dbus connection is modelled as an environment of responses: a function
from property name (and unit name) to either a Go error or the raw typed
string the library would hand back.  A Go runtime failure from an
out-of-range slice index is modelled by the `crash` outcome, which
propagates to the caller uncaught; a returned Go `error` is the `err`
outcome.  Machine `uint64` values are `Nat` with explicit reduction
modulo `2 ^ 64` where Go's wrapping subtraction occurs.
-/

/-- Outcome of a Go computation: normal return, returned `error`, or a
runtime failure that unwinds the stack (modelled explicitly, since the
plugin never recovers from one). -/
inductive Outcome (ε α : Type) where
  | ok : α → Outcome ε α
  | err : ε → Outcome ε α
  | crash : Outcome ε α
deriving DecidableEq, Repr

/-- Go `strconv.ParseUint(s, 10, 64)`: the string must be nonempty and
all decimal digits; the value must fit in 64 bits (Go reports
`ErrRange`, which every caller treats as failure). -/
def parseUint64 (s : String) : Option Nat :=
  if s.data = [] then none
  else if s.data.all (fun c => c.isDigit) then
    let v := s.data.foldl (fun acc c => acc * 10 + (c.toNat - 48)) 0
    if v < 2 ^ 64 then some v else none
  else none

/-- Go `strconv.ParseInt(s, 10, 32)`: optional sign, decimal digits,
value within the signed 32-bit range (out of range is `ErrRange`, which
the caller treats as failure). -/
def parseInt32 (s : String) : Option Int :=
  if s.data = [] then none
  else
    let body : List Char :=
      if s.data.headD ' ' = '-' ∨ s.data.headD ' ' = '+' then s.data.tail else s.data
    if body = [] then none
    else if body.all (fun c => c.isDigit) then
      let v : Nat := body.foldl (fun acc c => acc * 10 + (c.toNat - 48)) 0
      let i : Int := if s.data.headD ' ' = '-' then -(v : Int) else (v : Int)
      if -(2 ^ 31) ≤ i ∧ i ≤ 2 ^ 31 - 1 then some i else none
    else none

/-- Splitting a character list around every space, keeping empty fields:
the behaviour of Go's `strings.Split(s, " ")` (and of `String.splitOn`,
restated by structural recursion so that it evaluates). -/
def splitFields : List Char → List (List Char)
  | [] => [[]]
  | c :: cs =>
    let r := splitFields cs
    if c = ' ' then [] :: r
    else
      match r with
      | [] => [[c]]
      | f :: rest => (c :: f) :: rest

/-- Go `strings.Split(str, " ")`. -/
def goSplitSpace (s : String) : List String :=
  (splitFields s.data).map (fun cs => ⟨cs⟩)

/-- `stripType` from the source: `strings.Split(str, " ")[1]`.  The
index `[1]` is out of range when the split yields fewer than two fields,
which in Go is a runtime failure, so the result is an `Option` whose
`none` stands for that crash. -/
def stripType (str : String) : Option String :=
  (goSplitSpace str).get? 1

/-- Go `strings.HasSuffix s suf`. -/
def goHasSuffix (s suf : String) : Bool :=
  suf.data.isSuffixOf s.data

/-- A dbus manager-property environment: what
`dbusConn.GetManagerProperty` returns for each property name. -/
abbrev MgrBus := String → Except String String

/-- A dbus unit-property environment: what `dbusConn.GetUnitProperty`
returns for each unit name and property name. -/
abbrev UnitBus := String → String → Except String String

/-- `getManagerProp` from the source: read the property, propagate a read
error, otherwise strip the dbus type token (which crashes on a string
without a space). -/
def getManagerProp (bus : MgrBus) (propName : String) : Outcome String String :=
  match bus propName with
  | .error e => .err e
  | .ok prop =>
    match stripType prop with
    | none => .crash
    | some v => .ok v

/-- `bootIsFinished` from the source: `false` on connection failure, on
read failure and on `strconv.ParseInt(s, 10, 32)` failure; otherwise the
parsed value compared against zero. -/
def bootIsFinished (connOk : Bool) (bus : MgrBus) : Outcome String Bool :=
  if connOk = false then .ok false
  else
    match getManagerProp bus "FinishTimestampMonotonic" with
    | .crash => .crash
    | .err _ => .ok false
    | .ok progressStr =>
      match parseInt32 progressStr with
      | none => .ok false
      | some progressVal => .ok (progressVal != 0)

/-- The 17 keys of the package-level `managerProps` map literal. -/
def managerPropNames : List String :=
  [ "FirmwareTimestampMonotonic"
  , "LoaderTimestampMonotonic"
  , "InitRDTimestampMonotonic"
  , "UserspaceTimestampMonotonic"
  , "FinishTimestampMonotonic"
  , "SecurityStartTimestampMonotonic"
  , "SecurityFinishTimestampMonotonic"
  , "GeneratorsStartTimestampMonotonic"
  , "GeneratorsFinishTimestampMonotonic"
  , "UnitsLoadStartTimestampMonotonic"
  , "UnitsLoadFinishTimestampMonotonic"
  , "InitRDSecurityStartTimestampMonotonic"
  , "InitRDSecurityFinishTimestampMonotonic"
  , "InitRDGeneratorsStartTimestampMonotonic"
  , "InitRDGeneratorsFinishTimestampMonotonic"
  , "InitRDUnitsLoadStartTimestampMonotonic"
  , "InitRDUnitsLoadFinishTimestampMonotonic" ]

/-- The Go `map[string]string`: lookup yields the stored value together
with the `found` flag, here fused into an `Option`. -/
abbrev MgrMap := String → Option String

/-- Go map assignment `m[k] = v` (inserts if absent, overwrites if
present; never removes a key). -/
def mapUpdate (m : MgrMap) (k v : String) : MgrMap :=
  fun n => if n = k then some v else m n

/-- The package-level `managerProps` map literal: all 17 keys present,
each bound to the empty string. -/
def initialMgrMap : MgrMap :=
  fun n => if managerPropNames.contains n then some "" else none

/-- Result of one run of `postAllManagerProps`: the map after the
write-backs, the accumulator records `(name, value)` in iteration order,
the errors passed to `acc.AddError`, and whether the run crashed. -/
structure MgrPassOut where
  map : MgrMap
  records : List (String × Nat)
  errors : List String
  crashed : Bool

/-- `postAllManagerProps` from the source, on an explicit list of keys
(the source iterates over the keys of `managerProps`).  A read error
skips the key without touching the map; a successful read writes the
stripped value back before any zero check or parse; the string compares
against `""` and `"0"` decide skipping; a `ParseUint` failure is
reported and skipped; otherwise the record is emitted.  A crash inside
`stripType` aborts the remaining iterations. -/
def postAllManagerProps (bus : MgrBus) : List String → MgrMap → MgrPassOut
  | [], m => ⟨m, [], [], false⟩
  | name :: rest, m =>
    match getManagerProp bus name with
    | .crash => ⟨m, [], [], true⟩
    | .err _ => postAllManagerProps bus rest m
    | .ok propVal =>
      let m' := mapUpdate m name propVal
      if propVal = "" ∨ propVal = "0" then
        postAllManagerProps bus rest m'
      else
        match parseUint64 propVal with
        | none =>
          let o := postAllManagerProps bus rest m'
          ⟨o.map, o.records, propVal :: o.errors, o.crashed⟩
        | some value =>
          let o := postAllManagerProps bus rest m'
          ⟨o.map, (name, value) :: o.records, o.errors, o.crashed⟩

/-- Wrapping 64-bit subtraction `a - b` on values below `2 ^ 64`. -/
def sub64 (a b : Nat) : Nat :=
  (a + 2 ^ 64 - b) % 2 ^ 64

/-- Lines 191–215 of the source: normalize each nonzero raw timestamp by
(wrapping) subtraction of the userspace start, leave zero timestamps
untouched, then derive the run duration from the normalized values. -/
def computeUnitTimes (activating activated deactivating deactivated userSpaceStart : Nat) :
    Nat × Nat × Nat × Nat × Nat :=
  let a := if activating > 0 then sub64 activating userSpaceStart else activating
  let b := if activated > 0 then sub64 activated userSpaceStart else activated
  let dg := if deactivating > 0 then sub64 deactivating userSpaceStart else deactivating
  let d := if deactivated > 0 then sub64 deactivated userSpaceStart else deactivated
  let rt := if b ≥ a then b - a else if d ≥ a then d - a else 0
  (a, b, dg, d, rt)

/-- `getUnitTimingData` from the source: the four property reads happen
first (each read error returns immediately), then the four
strip-and-parse steps in the same order (a missing space crashes, a
`ParseUint` failure returns an error), then the numeric part. -/
def getUnitTimingData (ubus : UnitBus) (unitName : String) (userSpaceStart : Nat) :
    Outcome String (Nat × Nat × Nat × Nat × Nat) :=
  match ubus unitName "InactiveExitTimestampMonotonic" with
  | .error e => .err e
  | .ok activatingProp =>
  match ubus unitName "ActiveEnterTimestampMonotonic" with
  | .error e => .err e
  | .ok activatedProp =>
  match ubus unitName "ActiveExitTimestampMonotonic" with
  | .error e => .err e
  | .ok deactivatingProp =>
  match ubus unitName "InactiveEnterTimestampMonotonic" with
  | .error e => .err e
  | .ok deactivatedProp =>
  match stripType activatingProp with
  | none => .crash
  | some sa =>
  match parseUint64 sa with
  | none => .err sa
  | some activating =>
  match stripType activatedProp with
  | none => .crash
  | some sb =>
  match parseUint64 sb with
  | none => .err sb
  | some activated =>
  match stripType deactivatingProp with
  | none => .crash
  | some sg =>
  match parseUint64 sg with
  | none => .err sg
  | some deactivating =>
  match stripType deactivatedProp with
  | none => .crash
  | some sd =>
  match parseUint64 sd with
  | none => .err sd
  | some deactivated =>
  .ok (computeUnitTimes activating activated deactivating deactivated userSpaceStart)

/-- One emitted per-unit record: the `UnitName` tag and the five fields. -/
structure UnitRecord where
  unitName : String
  activating : Nat
  activated : Nat
  deactivating : Nat
  deactivated : Nat
  runDuration : Nat
deriving DecidableEq, Repr

/-- The per-unit loop of `postAllUnitTimingData` (lines 245–272): a unit
whose timing read fails is reported and skipped; a unit with zero run
duration whose name does not end in `".target"` is suppressed; every
other unit yields a record.  A crash aborts the remaining units. -/
def unitLoop (ubus : UnitBus) (userStartTs : Nat) :
    List String → List UnitRecord × List String × Bool
  | [] => ([], [], false)
  | u :: rest =>
    match getUnitTimingData ubus u userStartTs with
    | .crash => ([], [], true)
    | .err e =>
      let o := unitLoop ubus userStartTs rest
      (o.1, e :: o.2.1, o.2.2)
    | .ok (a, b, dg, d, r) =>
      if r = 0 ∧ ¬(goHasSuffix u ".target" = true) then
        unitLoop ubus userStartTs rest
      else
        let o := unitLoop ubus userStartTs rest
        (⟨u, a, b, dg, d, r⟩ :: o.1, o.2.1, o.2.2)

/-- The fatal errors `postAllUnitTimingData` and `Gather` can return. -/
inductive CollectErr where
  | connErr : CollectErr
  | listErr : String → CollectErr
  | missingDependency : CollectErr
  | userTsParseErr : String → CollectErr
deriving DecidableEq, Repr

/-- `postAllUnitTimingData` from the source.  The unit enumeration result
is part of the environment; an enumeration failure is fatal (reported and
returned).  Then the userspace start timestamp is looked up in the shared
map — the `!found` branch returns the `MissingDependency` error without
reporting it — and parsed (a parse failure is fatal, reported and
returned).  Finally the per-unit loop runs. -/
def postAllUnitTimingData (ubus : UnitBus) (listResult : Except String (List String))
    (m : MgrMap) : List UnitRecord × List String × Option CollectErr × Bool :=
  match listResult with
  | .error e => ([], [e], some (.listErr e), false)
  | .ok statusList =>
    match m "UserspaceTimestampMonotonic" with
    | none => ([], [], some .missingDependency, false)
    | some userTs =>
      match parseUint64 userTs with
      | none => ([], [userTs], some (.userTsParseErr userTs), false)
      | some userStartTs =>
        let o := unitLoop ubus userStartTs statusList
        (o.1, o.2.1, none, o.2.2)

/-- One tick's environment outside the plugin: the readiness-check connection, the
main connection, the two property buses and the unit enumeration. -/
structure World where
  bootConnOk : Bool
  mainConnOk : Bool
  mgrBus : MgrBus
  unitBus : UnitBus
  listResult : Except String (List String)

/-- The plugin's package-level mutable state: `collectionDone` and the
`managerProps` map. -/
structure PluginState where
  collectionDone : Bool
  managerProps : MgrMap

/-- The state the process starts in. -/
def initialState : PluginState :=
  ⟨false, initialMgrMap⟩

/-- Everything one call of `Gather` produces: the two kinds of records,
the reported errors, the returned error, whether the tick crashed, and
the package state afterwards. -/
structure GatherOut where
  mgrRecords : List (String × Nat)
  unitRecords : List UnitRecord
  errors : List String
  retErr : Option CollectErr
  crashed : Bool
  state : PluginState

/-- `Gather` from the source: readiness gate, one-shot gate, connection,
manager pass (which returns nil, so its error branch never fires), unit
pass, and `collectionDone := true` exactly when the unit pass returned
nil. -/
def Gather (w : World) (periodic : Bool) (st : PluginState) : GatherOut :=
  match bootIsFinished w.bootConnOk w.mgrBus with
  | .crash => ⟨[], [], [], none, true, st⟩
  | .err _ => ⟨[], [], [], none, false, st⟩
  | .ok finished =>
    if finished = false then ⟨[], [], [], none, false, st⟩
    else if periodic = false ∧ st.collectionDone = true then ⟨[], [], [], none, false, st⟩
    else if w.mainConnOk = false then ⟨[], [], [], some .connErr, false, st⟩
    else
      let mp := postAllManagerProps w.mgrBus managerPropNames st.managerProps
      if mp.crashed then ⟨mp.records, [], mp.errors, none, true, ⟨st.collectionDone, mp.map⟩⟩
      else
        let up := postAllUnitTimingData w.unitBus w.listResult mp.map
        if up.2.2.2 then
          ⟨mp.records, up.1, mp.errors ++ up.2.1, none, true, ⟨st.collectionDone, mp.map⟩⟩
        else
          match up.2.2.1 with
          | some e =>
            ⟨mp.records, up.1, mp.errors ++ up.2.1, some e, false, ⟨st.collectionDone, mp.map⟩⟩
          | none =>
            ⟨mp.records, up.1, mp.errors ++ up.2.1, none, false, ⟨true, mp.map⟩⟩

/-- The package states reachable from process start by any sequence of
`Gather` ticks, under any environments and either periodic setting. -/
inductive Reachable : PluginState → Prop where
  | init : Reachable initialState
  | step : ∀ (w : World) (p : Bool) (st : PluginState),
      Reachable st → Reachable (Gather w p st).state

/-! ## Helper lemmas -/

theorem parseUint64_lt {s : String} {v : Nat} (h : parseUint64 s = some v) : v < 2 ^ 64 := by
  simp only [parseUint64] at h
  repeat any_goals split at h
  all_goals try cases h
  all_goals assumption

theorem sub64_eq_sub {v us : Nat} (hv : v < 2 ^ 64) (hus : us ≤ v) :
    sub64 v us = v - us := by
  unfold sub64
  have h1 : v + 2 ^ 64 - us = 2 ^ 64 + (v - us) := by omega
  rw [h1, Nat.add_mod_left]
  exact Nat.mod_eq_of_lt (by omega)

theorem getUnitTimingData_ok {ubus : UnitBus} {u : String} {us : Nat}
    {t : Nat × Nat × Nat × Nat × Nat} (h : getUnitTimingData ubus u us = .ok t) :
    ∃ ra rb rg rd sa sb sg sd pa pb pg pd,
      ubus u "InactiveExitTimestampMonotonic" = .ok pa ∧
      ubus u "ActiveEnterTimestampMonotonic" = .ok pb ∧
      ubus u "ActiveExitTimestampMonotonic" = .ok pg ∧
      ubus u "InactiveEnterTimestampMonotonic" = .ok pd ∧
      stripType pa = some sa ∧ parseUint64 sa = some ra ∧
      stripType pb = some sb ∧ parseUint64 sb = some rb ∧
      stripType pg = some sg ∧ parseUint64 sg = some rg ∧
      stripType pd = some sd ∧ parseUint64 sd = some rd ∧
      t = computeUnitTimes ra rb rg rd us := by
  unfold getUnitTimingData at h
  repeat any_goals split at h
  all_goals try cases h
  rename_i x11 pa h1 x10 pb h2 x9 pg h3 x8 pd h4 x7 sa h5 x6 ra h6 x5 sb h7 x4 rb h8 x3 sg h9 x2 rg h10 x1 sd h11 x0 rd h12
  exact ⟨ra, rb, rg, rd, sa, sb, sg, sd, pa, pb, pg, pd,
    h1, h2, h3, h4, h5, h6, h7, h8, h9, h10, h11, h12, rfl⟩

/-- C1: the run duration returned by `getUnitTimingData` is derived from
the normalized activating/activated/deactivated values it returns by the
stated rule. -/
theorem runDuration_rule (ubus : UnitBus) (u : String) (us a b dg d r : Nat)
    (h : getUnitTimingData ubus u us = .ok (a, b, dg, d, r)) :
    r = if b ≥ a then b - a else if d ≥ a then d - a else 0 := by
  obtain ⟨ra, rb, rg, rd, sa, sb, sg, sd, pa, pb, pg, pd,
    _, _, _, _, _, _, _, _, _, _, _, _, ht⟩ := getUnitTimingData_ok h
  simp only [computeUnitTimes, Prod.mk.injEq] at ht
  obtain ⟨rfl, rfl, rfl, rfl, rfl⟩ := ht
  rfl

/-- The concrete scenario environment: raw activating 1000, activated
5000, both deactivation timestamps 0. -/
def ubusScenario : UnitBus := fun _ p =>
  if p = "InactiveExitTimestampMonotonic" then .ok "t 1000"
  else if p = "ActiveEnterTimestampMonotonic" then .ok "t 5000"
  else .ok "t 0"

theorem runDuration_rule_witness :
    getUnitTimingData ubusScenario "a.service" 500 = .ok (500, 4500, 0, 0, 4000) ∧
      4000 = if 4500 ≥ 500 then 4500 - 500 else if 0 ≥ 500 then 0 - 500 else (0 : Nat) :=
  ⟨by decide, runDuration_rule ubusScenario "a.service" 500 500 4500 0 0 4000 (by decide)⟩

theorem norm_component_eq {rX us : Nat} (hlt : rX < 2 ^ 64) (h : rX = 0 ∨ us ≤ rX) :
    (if rX > 0 then sub64 rX us else rX) = if rX = 0 then 0 else rX - us := by
  by_cases h0 : rX = 0
  · subst h0; simp
  · rcases h with h | h
    · exact absurd h h0
    · rw [if_pos (Nat.pos_of_ne_zero h0), if_neg h0, sub64_eq_sub hlt h]

theorem computeUnitTimes_norm (rA rB rG rD us : Nat)
    (hltA : rA < 2 ^ 64) (hltB : rB < 2 ^ 64) (hltG : rG < 2 ^ 64) (hltD : rD < 2 ^ 64)
    (hA : rA = 0 ∨ us ≤ rA) (hB : rB = 0 ∨ us ≤ rB)
    (hG : rG = 0 ∨ us ≤ rG) (hD : rD = 0 ∨ us ≤ rD) :
    computeUnitTimes rA rB rG rD us =
      ( if rA = 0 then 0 else rA - us
      , if rB = 0 then 0 else rB - us
      , if rG = 0 then 0 else rG - us
      , if rD = 0 then 0 else rD - us
      , if (if rB = 0 then 0 else rB - us) ≥ (if rA = 0 then 0 else rA - us) then
          (if rB = 0 then 0 else rB - us) - (if rA = 0 then 0 else rA - us)
        else if (if rD = 0 then 0 else rD - us) ≥ (if rA = 0 then 0 else rA - us) then
          (if rD = 0 then 0 else rD - us) - (if rA = 0 then 0 else rA - us)
        else 0 ) := by
  unfold computeUnitTimes
  rw [norm_component_eq hltA hA, norm_component_eq hltB hB,
    norm_component_eq hltG hG, norm_component_eq hltD hD]

/-- C5: when each raw timestamp is either zero or at least the userspace
start, `getUnitTimingData` normalizes every nonzero raw timestamp to the
difference from the userspace start, keeps zero timestamps at zero, and
derives the run duration from the normalized values. -/
theorem normalization_rule (ubus : UnitBus) (u : String)
    (us rA rB rG rD : Nat) (pa pb pg pd sa sb sg sd : String)
    (hpa : ubus u "InactiveExitTimestampMonotonic" = .ok pa)
    (hpb : ubus u "ActiveEnterTimestampMonotonic" = .ok pb)
    (hpg : ubus u "ActiveExitTimestampMonotonic" = .ok pg)
    (hpd : ubus u "InactiveEnterTimestampMonotonic" = .ok pd)
    (hsa : stripType pa = some sa) (hra : parseUint64 sa = some rA)
    (hsb : stripType pb = some sb) (hrb : parseUint64 sb = some rB)
    (hsg : stripType pg = some sg) (hrg : parseUint64 sg = some rG)
    (hsd : stripType pd = some sd) (hrd : parseUint64 sd = some rD)
    (hA : rA = 0 ∨ us ≤ rA) (hB : rB = 0 ∨ us ≤ rB)
    (hG : rG = 0 ∨ us ≤ rG) (hD : rD = 0 ∨ us ≤ rD) :
    getUnitTimingData ubus u us = .ok
      ( if rA = 0 then 0 else rA - us
      , if rB = 0 then 0 else rB - us
      , if rG = 0 then 0 else rG - us
      , if rD = 0 then 0 else rD - us
      , if (if rB = 0 then 0 else rB - us) ≥ (if rA = 0 then 0 else rA - us) then
          (if rB = 0 then 0 else rB - us) - (if rA = 0 then 0 else rA - us)
        else if (if rD = 0 then 0 else rD - us) ≥ (if rA = 0 then 0 else rA - us) then
          (if rD = 0 then 0 else rD - us) - (if rA = 0 then 0 else rA - us)
        else 0 ) := by
  simp only [getUnitTimingData, hpa, hpb, hpg, hpd, hsa, hsb, hsg, hsd, hra, hrb, hrg, hrd]
  rw [computeUnitTimes_norm rA rB rG rD us
    (parseUint64_lt hra) (parseUint64_lt hrb) (parseUint64_lt hrg) (parseUint64_lt hrd)
    hA hB hG hD]

theorem normalization_rule_witness :
    getUnitTimingData ubusScenario "a.service" 500 = .ok (500, 4500, 0, 0, 4000) := by
  have h := normalization_rule ubusScenario "a.service" 500 1000 5000 0 0
    "t 1000" "t 5000" "t 0" "t 0" "1000" "5000" "0" "0"
    rfl rfl rfl rfl (by decide) (by decide) (by decide) (by decide)
    (by decide) (by decide) (by decide) (by decide)
    (Or.inr (by decide)) (Or.inr (by decide)) (Or.inl rfl) (Or.inl rfl)
  simpa using h

theorem unitLoop_sound {ubus : UnitBus} {us : Nat} {units : List String} :
    ∀ rec ∈ (unitLoop ubus us units).1,
      rec.unitName ∈ units ∧
      getUnitTimingData ubus rec.unitName us =
        .ok (rec.activating, rec.activated, rec.deactivating, rec.deactivated, rec.runDuration) ∧
      (rec.runDuration ≠ 0 ∨ goHasSuffix rec.unitName ".target" = true) := by
  induction units with
  | nil => intro rec hrec; simp [unitLoop] at hrec
  | cons v rest ih =>
    intro rec hrec
    cases hv : getUnitTimingData ubus v us with
    | crash => simp only [unitLoop, hv] at hrec; simp at hrec
    | err e =>
      simp only [unitLoop, hv] at hrec
      obtain ⟨h1, h2, h3⟩ := ih rec hrec
      exact ⟨List.mem_cons_of_mem _ h1, h2, h3⟩
    | ok t =>
      obtain ⟨a, b, dg, d, r⟩ := t
      by_cases hsup : r = 0 ∧ ¬(goHasSuffix v ".target" = true)
      · simp only [unitLoop, hv, if_pos hsup] at hrec
        obtain ⟨h1, h2, h3⟩ := ih rec hrec
        exact ⟨List.mem_cons_of_mem _ h1, h2, h3⟩
      · simp only [unitLoop, hv, if_neg hsup] at hrec
        rcases List.mem_cons.mp hrec with rfl | hrec'
        · refine ⟨List.mem_cons_self _ _, hv, ?_⟩
          by_cases hr : r = 0
          · subst hr
            by_cases he : goHasSuffix v ".target" = true
            · exact Or.inr he
            · exact absurd ⟨rfl, he⟩ hsup
          · exact Or.inl hr
        · obtain ⟨h1, h2, h3⟩ := ih rec hrec'
          exact ⟨List.mem_cons_of_mem _ h1, h2, h3⟩

theorem unitLoop_complete {ubus : UnitBus} {us : Nat} {units : List String}
    {u : String} {a b dg d r : Nat}
    (hnc : (unitLoop ubus us units).2.2 = false)
    (hmem : u ∈ units) (hok : getUnitTimingData ubus u us = .ok (a, b, dg, d, r))
    (hcond : r ≠ 0 ∨ goHasSuffix u ".target" = true) :
    ∃ rec ∈ (unitLoop ubus us units).1, rec.unitName = u := by
  induction units with
  | nil => cases hmem
  | cons v rest ih =>
    rcases List.mem_cons.mp hmem with rfl | hmem'
    · have hsup : ¬(r = 0 ∧ ¬(goHasSuffix u ".target" = true)) := by
        rcases hcond with h | h
        · intro hc; exact h hc.1
        · intro hc; exact hc.2 h
      refine ⟨⟨u, a, b, dg, d, r⟩, ?_, rfl⟩
      simp only [unitLoop, hok, if_neg hsup]
      exact List.mem_cons_self _ _
    · cases hv : getUnitTimingData ubus v us with
      | crash => simp only [unitLoop, hv] at hnc; simp at hnc
      | err e =>
        simp only [unitLoop, hv] at hnc ⊢
        exact ih hnc hmem'
      | ok t =>
        obtain ⟨a', b', dg', d', r'⟩ := t
        by_cases hsup : r' = 0 ∧ ¬(goHasSuffix v ".target" = true)
        · simp only [unitLoop, hv, if_pos hsup] at hnc ⊢
          exact ih hnc hmem'
        · simp only [unitLoop, hv, if_neg hsup] at hnc ⊢
          obtain ⟨rec, hrec, hname⟩ := ih hnc hmem'
          exact ⟨rec, List.mem_cons_of_mem _ hrec, hname⟩

/-- C2: for a successfully read-and-decoded enumerated unit, a record is
emitted exactly when the unit name ends in ".target" or the derived run
duration is nonzero. -/
theorem targetSuffix_emission (ubus : UnitBus) (units : List String) (m : MgrMap)
    (uts : String) (usv : Nat) (u : String) (a b dg d r : Nat)
    (hm : m "UserspaceTimestampMonotonic" = some uts)
    (hp : parseUint64 uts = some usv)
    (hmem : u ∈ units)
    (hok : getUnitTimingData ubus u usv = .ok (a, b, dg, d, r))
    (hnc : (postAllUnitTimingData ubus (.ok units) m).2.2.2 = false) :
    (∃ rec ∈ (postAllUnitTimingData ubus (.ok units) m).1, rec.unitName = u) ↔
      (goHasSuffix u ".target" = true ∨ r ≠ 0) := by
  simp only [postAllUnitTimingData, hm, hp] at hnc ⊢
  constructor
  · rintro ⟨rec, hrec, rfl⟩
    obtain ⟨h1, h2, h3⟩ := unitLoop_sound rec hrec
    rw [hok] at h2
    injection h2 with h2'
    obtain ⟨rfl, rfl, rfl, rfl, rfl⟩ := by simpa [Prod.ext_iff] using h2'
    exact h3.symm
  · intro hcond
    exact unitLoop_complete hnc hmem hok hcond.symm

def zeroUbus : UnitBus := fun _ _ => .ok "t 0"

def mgrMapZero : MgrMap := mapUpdate initialMgrMap "UserspaceTimestampMonotonic" "0"

theorem targetSuffix_emission_witness :
    ∃ rec ∈ (postAllUnitTimingData zeroUbus (.ok ["a.target"]) mgrMapZero).1,
      rec.unitName = "a.target" :=
  (targetSuffix_emission zeroUbus ["a.target"] mgrMapZero "0" 0 "a.target" 0 0 0 0 0
    (by decide) (by decide) (by decide) (by decide) (by decide)).mpr (Or.inl (by decide))

theorem mgrPass_sound {bus : MgrBus} {names : List String} {m : MgrMap} :
    ∀ p ∈ (postAllManagerProps bus names m).records,
      p.1 ∈ names ∧ ∃ v, getManagerProp bus p.1 = .ok v ∧
        ¬(v = "" ∨ v = "0") ∧ parseUint64 v = some p.2 := by
  induction names generalizing m with
  | nil => intro p hp; simp [postAllManagerProps] at hp
  | cons nm rest ih =>
    intro p hp
    cases hg : getManagerProp bus nm with
    | crash => simp only [postAllManagerProps, hg] at hp; simp at hp
    | err e =>
      simp only [postAllManagerProps, hg] at hp
      obtain ⟨h1, h2⟩ := ih p hp
      exact ⟨List.mem_cons_of_mem _ h1, h2⟩
    | ok v =>
      by_cases hz : v = "" ∨ v = "0"
      · simp only [postAllManagerProps, hg, if_pos hz] at hp
        obtain ⟨h1, h2⟩ := ih p hp
        exact ⟨List.mem_cons_of_mem _ h1, h2⟩
      · cases hx : parseUint64 v with
        | none =>
          simp only [postAllManagerProps, hg, if_neg hz, hx] at hp
          obtain ⟨h1, h2⟩ := ih p hp
          exact ⟨List.mem_cons_of_mem _ h1, h2⟩
        | some x =>
          simp only [postAllManagerProps, hg, if_neg hz, hx] at hp
          rcases List.mem_cons.mp hp with rfl | hp'
          · exact ⟨List.mem_cons_self _ _, v, hg, hz, hx⟩
          · obtain ⟨h1, h2⟩ := ih _ hp'
            exact ⟨List.mem_cons_of_mem _ h1, h2⟩

theorem mgrPass_complete {bus : MgrBus} {names : List String} {m : MgrMap}
    {n v : String} {x : Nat}
    (hnc : (postAllManagerProps bus names m).crashed = false)
    (hmem : n ∈ names) (hok : getManagerProp bus n = .ok v)
    (hnz : ¬(v = "" ∨ v = "0")) (hx : parseUint64 v = some x) :
    (n, x) ∈ (postAllManagerProps bus names m).records := by
  induction names generalizing m with
  | nil => cases hmem
  | cons nm rest ih =>
    rcases List.mem_cons.mp hmem with rfl | hmem'
    · simp only [postAllManagerProps, hok, if_neg hnz, hx] at hnc ⊢
      exact List.mem_cons_self _ _
    · cases hg : getManagerProp bus nm with
      | crash => simp only [postAllManagerProps, hg] at hnc; simp at hnc
      | err e =>
        simp only [postAllManagerProps, hg] at hnc ⊢
        exact ih hnc hmem'
      | ok v' =>
        by_cases hz : v' = "" ∨ v' = "0"
        · simp only [postAllManagerProps, hg, if_pos hz] at hnc ⊢
          exact ih hnc hmem'
        · cases hx' : parseUint64 v' with
          | none =>
            simp only [postAllManagerProps, hg, if_neg hz, hx'] at hnc ⊢
            exact ih hnc hmem'
          | some x' =>
            simp only [postAllManagerProps, hg, if_neg hz, hx'] at hnc ⊢
            exact List.mem_cons_of_mem _ (ih hnc hmem')

def busLeadingZero : MgrBus := fun n =>
  if n = "FirmwareTimestampMonotonic" then .ok "t 00" else .error "io"

/-- C3 counterexample: the property string "t 00" decodes to the value 0,
yet a record carrying 0 is emitted, because the source compares the value
string against the literals "" and "0", not the decoded number. -/
theorem zero_with_leading_zeros_emitted :
    (postAllManagerProps busLeadingZero managerPropNames initialMgrMap).records =
      [("FirmwareTimestampMonotonic", 0)] ∧
    (stripType "t 00").bind parseUint64 = some 0 := ⟨by decide, by decide⟩

/-- C3 amended: for a successfully read property, a record is emitted iff
the stripped value string is neither empty nor the literal "0" and it
parses as a uint64; this coincides with "decoded value is nonzero" only
for canonical decimal renderings. -/
theorem mgr_emission_characterization (bus : MgrBus) (names : List String) (m : MgrMap)
    (n raw v : String)
    (hnc : (postAllManagerProps bus names m).crashed = false)
    (hmem : n ∈ names) (hraw : bus n = .ok raw) (hstrip : stripType raw = some v) :
    (∃ val, (n, val) ∈ (postAllManagerProps bus names m).records) ↔
      (v ≠ "" ∧ v ≠ "0" ∧ (parseUint64 v).isSome) := by
  have hok : getManagerProp bus n = .ok v := by
    simp only [getManagerProp, hraw, hstrip]
  constructor
  · rintro ⟨val, hval⟩
    obtain ⟨h1, v', hok', hnz', hx'⟩ := mgrPass_sound _ hval
    rw [hok] at hok'
    injection hok' with hv'
    subst hv'
    push_neg at hnz'
    exact ⟨hnz'.1, hnz'.2, by rw [hx']; rfl⟩
  · rintro ⟨h1, h2, h3⟩
    obtain ⟨x, hx⟩ := Option.isSome_iff_exists.mp h3
    exact ⟨x, mgrPass_complete hnc hmem hok (by push_neg; exact ⟨h1, h2⟩) hx⟩

def busFive : MgrBus := fun _ => .ok "t 5"

theorem mgr_emission_characterization_witness :
    ∃ val, ("FirmwareTimestampMonotonic", val) ∈
      (postAllManagerProps busFive managerPropNames initialMgrMap).records :=
  (mgr_emission_characterization busFive managerPropNames initialMgrMap
    "FirmwareTimestampMonotonic" "t 5" "5" (by decide) (by decide) rfl
    (by decide)).mpr ⟨by decide, by decide, by decide⟩

theorem mgrPass_map_notmem {bus : MgrBus} {names : List String} {m : MgrMap} {n : String}
    (h : n ∉ names) : (postAllManagerProps bus names m).map n = m n := by
  induction names generalizing m with
  | nil => rfl
  | cons nm rest ih =>
    have hne : n ≠ nm := fun he => h (he ▸ List.mem_cons_self _ _)
    have hnr : n ∉ rest := fun hr => h (List.mem_cons_of_mem _ hr)
    cases hg : getManagerProp bus nm with
    | crash => simp only [postAllManagerProps, hg]
    | err e => simp only [postAllManagerProps, hg]; exact ih hnr
    | ok v =>
      by_cases hz : v = "" ∨ v = "0"
      · simp only [postAllManagerProps, hg, if_pos hz]
        rw [ih hnr]; exact if_neg hne
      · cases hx : parseUint64 v with
        | none =>
          simp only [postAllManagerProps, hg, if_neg hz, hx]
          rw [ih hnr]; exact if_neg hne
        | some x =>
          simp only [postAllManagerProps, hg, if_neg hz, hx]
          rw [ih hnr]; exact if_neg hne

theorem mgrPass_map_stable {bus : MgrBus} {names : List String} {m : MgrMap} {n : String}
    (h : ∀ v, getManagerProp bus n ≠ .ok v) :
    (postAllManagerProps bus names m).map n = m n := by
  induction names generalizing m with
  | nil => rfl
  | cons nm rest ih =>
    cases hg : getManagerProp bus nm with
    | crash => simp only [postAllManagerProps, hg]
    | err e => simp only [postAllManagerProps, hg]; exact ih
    | ok v =>
      have hne : n ≠ nm := fun he => h v (he ▸ hg)
      by_cases hz : v = "" ∨ v = "0"
      · simp only [postAllManagerProps, hg, if_pos hz]
        rw [ih]; exact if_neg hne
      · cases hx : parseUint64 v with
        | none =>
          simp only [postAllManagerProps, hg, if_neg hz, hx]
          rw [ih]; exact if_neg hne
        | some x =>
          simp only [postAllManagerProps, hg, if_neg hz, hx]
          rw [ih]; exact if_neg hne

theorem mgrPass_map_ok {bus : MgrBus} {names : List String} {m : MgrMap} {n v : String}
    (hnc : (postAllManagerProps bus names m).crashed = false)
    (hmem : n ∈ names) (hok : getManagerProp bus n = .ok v) :
    (postAllManagerProps bus names m).map n = some v := by
  induction names generalizing m with
  | nil => cases hmem
  | cons nm rest ih =>
    by_cases hn : n ∈ rest
    · cases hg : getManagerProp bus nm with
      | crash => simp only [postAllManagerProps, hg] at hnc; simp at hnc
      | err e =>
        simp only [postAllManagerProps, hg] at hnc ⊢
        exact ih hnc hn
      | ok v' =>
        by_cases hz : v' = "" ∨ v' = "0"
        · simp only [postAllManagerProps, hg, if_pos hz] at hnc ⊢
          exact ih hnc hn
        · cases hx : parseUint64 v' with
          | none =>
            simp only [postAllManagerProps, hg, if_neg hz, hx] at hnc ⊢
            exact ih hnc hn
          | some x =>
            simp only [postAllManagerProps, hg, if_neg hz, hx] at hnc ⊢
            exact ih hnc hn
    · have hnm : n = nm := by
        rcases List.mem_cons.mp hmem with h | h
        · exact h
        · exact absurd h hn
      subst hnm
      have hupd : mapUpdate m n v n = some v := if_pos rfl
      by_cases hz : v = "" ∨ v = "0"
      · simp only [postAllManagerProps, hok, if_pos hz] at hnc ⊢
        rw [mgrPass_map_notmem hn]; exact hupd
      · cases hx : parseUint64 v with
        | none =>
          simp only [postAllManagerProps, hok, if_neg hz, hx] at hnc ⊢
          rw [mgrPass_map_notmem hn]; exact hupd
        | some x =>
          simp only [postAllManagerProps, hok, if_neg hz, hx] at hnc ⊢
          rw [mgrPass_map_notmem hn]; exact hupd

theorem mgrPass_map_isSome {bus : MgrBus} {names : List String} {m : MgrMap} {n : String}
    (h : (m n).isSome) : ((postAllManagerProps bus names m).map n).isSome := by
  induction names generalizing m with
  | nil => exact h
  | cons nm rest ih =>
    have hupd : ∀ v, ((mapUpdate m nm v) n).isSome := by
      intro v
      unfold mapUpdate
      by_cases he : n = nm
      · rw [if_pos he]; rfl
      · rw [if_neg he]; exact h
    cases hg : getManagerProp bus nm with
    | crash => simp only [postAllManagerProps, hg]; exact h
    | err e => simp only [postAllManagerProps, hg]; exact ih h
    | ok v =>
      by_cases hz : v = "" ∨ v = "0"
      · simp only [postAllManagerProps, hg, if_pos hz]
        exact ih (hupd v)
      · cases hx : parseUint64 v with
        | none =>
          simp only [postAllManagerProps, hg, if_neg hz, hx]
          exact ih (hupd v)
        | some x =>
          simp only [postAllManagerProps, hg, if_neg hz, hx]
          exact ih (hupd v)

def busStale : MgrBus := fun _ => .ok "t 5"

def busDown : MgrBus := fun _ => .error "io"

/-- C6 counterexample: after a pass in which every read fails, a key
still holds the value "5" stored by an earlier pass, not a retained
empty value — on a read failure the source skips the write-back. -/
theorem stale_value_retained_on_read_failure :
    (postAllManagerProps busDown managerPropNames
        (postAllManagerProps busStale managerPropNames initialMgrMap).map).map
      "FirmwareTimestampMonotonic" = some "5" ∧ ("5" : String) ≠ "" :=
  ⟨by decide, by decide⟩

/-- C6 amended: after a non-crashing run of the manager pass, a key whose
read succeeded holds the stripped value (even when it fails to decode),
and a key whose read failed keeps its previous value unchanged. -/
theorem mgr_writeback_characterization (bus : MgrBus) (names : List String) (m : MgrMap)
    (n : String)
    (hnc : (postAllManagerProps bus names m).crashed = false) (hmem : n ∈ names) :
    (∀ v, getManagerProp bus n = .ok v →
      (postAllManagerProps bus names m).map n = some v) ∧
    (∀ e, getManagerProp bus n = .err e →
      (postAllManagerProps bus names m).map n = m n) :=
  ⟨fun _ hv => mgrPass_map_ok hnc hmem hv,
   fun e he => mgrPass_map_stable (fun v hv => by rw [he] at hv; cases hv)⟩

theorem mgr_writeback_characterization_witness :
    (postAllManagerProps busDown managerPropNames initialMgrMap).map
      "FirmwareTimestampMonotonic" = initialMgrMap "FirmwareTimestampMonotonic" :=
  (mgr_writeback_characterization busDown managerPropNames initialMgrMap
    "FirmwareTimestampMonotonic" (by decide) (by decide)).2 "io" rfl

def busFinishBig : MgrBus := fun _ => .ok "@t 2147483648"

/-- C4: the readiness check parses the stripped `FinishTimestampMonotonic`
value with `strconv.ParseInt(s, 10, 32)`; a value that is a nonzero
unsigned 64-bit integer but exceeds the signed 32-bit range makes the
check return false, although the decoded uint64 value is nonzero. -/
theorem bootIsFinished_int32_bug :
    bootIsFinished true busFinishBig = .ok false ∧
    (stripType "@t 2147483648").bind parseUint64 = some 2147483648 ∧
    (2147483648 : Nat) ≠ 0 := ⟨by decide, by decide, by decide⟩

/-- C7: with periodic=false and a completed prior pass, a tick emits no
records and leaves the state unchanged; and the completion flag can only
become true on a tick whose pass returned no fatal error and did not
crash. -/
theorem oneShot_semantics (w : World) (st : PluginState) :
    (st.collectionDone = true →
      (Gather w false st).mgrRecords = [] ∧ (Gather w false st).unitRecords = [] ∧
      (Gather w false st).state = st) ∧
    (∀ p : Bool, (Gather w p st).state.collectionDone = true →
      st.collectionDone = true ∨
        ((Gather w p st).retErr = none ∧ (Gather w p st).crashed = false)) := by
  constructor
  · intro hdone
    simp only [Gather]
    repeat any_goals split
    all_goals first
      | exact ⟨rfl, rfl, rfl⟩
      | exact absurd (⟨trivial, hdone⟩ : True ∧ st.collectionDone = true) (by assumption)
  · intro p
    simp only [Gather]
    repeat any_goals split
    all_goals intro h
    all_goals first
      | exact Or.inl h
      | exact Or.inr ⟨rfl, rfl⟩

def worldDown : World := ⟨false, false, busDown, fun _ _ => .error "io", .error "io"⟩

def stDone : PluginState := ⟨true, initialMgrMap⟩

theorem oneShot_semantics_witness :
    (Gather worldDown false stDone).mgrRecords = [] ∧
    (Gather worldDown false stDone).unitRecords = [] ∧
    (Gather worldDown false stDone).state = stDone :=
  (oneShot_semantics worldDown stDone).1 rfl

/-- C8: with the key absent from the shared map, the unit pass returns
the missing-dependency error and emits nothing; with the key present, no
missing-dependency error can be returned. -/
theorem missingDependency_on_absent (ubus : UnitBus) (m : MgrMap) (units : List String) :
    (m "UserspaceTimestampMonotonic" = none →
      postAllUnitTimingData ubus (.ok units) m =
        ([], [], some CollectErr.missingDependency, false)) ∧
    (∀ (v : String) (lr : Except String (List String)),
      m "UserspaceTimestampMonotonic" = some v →
      (postAllUnitTimingData ubus lr m).2.2.1 ≠ some CollectErr.missingDependency) := by
  constructor
  · intro h
    simp only [postAllUnitTimingData, h]
  · intro v lr h
    cases lr with
    | error e => simp [postAllUnitTimingData]
    | ok us =>
      simp only [postAllUnitTimingData, h]
      cases hx : parseUint64 v with
      | none => simp
      | some usv => simp

def emptyMgrMap : MgrMap := fun _ => none

def ubusDown : UnitBus := fun _ _ => .error "io"

theorem missingDependency_on_absent_witness :
    postAllUnitTimingData ubusDown (.ok []) emptyMgrMap =
      ([], [], some CollectErr.missingDependency, false) :=
  (missingDependency_on_absent ubusDown emptyMgrMap []).1 rfl

/-- C9 counterexample: the three-token input "t 5 x" does not have the
two-token "<type> <value>" shape, yet the decoder does not fail: it
returns the middle token, which parses as the value 5. -/
theorem stripType_three_tokens :
    goSplitSpace "t 5 x" = ["t", "5", "x"] ∧
    stripType "t 5 x" = some "5" ∧ parseUint64 "5" = some 5 :=
  ⟨by decide, by decide, by decide⟩

/-- C9 amended: the decoder fails exactly on inputs that split into
fewer than two fields (so inputs with three or more fields are not
rejected), and that failure is an index-out-of-range crash that
propagates out of the collection entry point instead of being returned
as an error. -/
theorem stripType_crash_characterization :
    (∀ s : String, stripType s = none ↔ (goSplitSpace s).length ≤ 1) ∧
    (∀ (w : World) (p : Bool) (st : PluginState) (s : String),
      w.bootConnOk = true → w.mgrBus "FinishTimestampMonotonic" = .ok s →
      (goSplitSpace s).length ≤ 1 → (Gather w p st).crashed = true) := by
  have hmain : ∀ s : String, stripType s = none ↔ (goSplitSpace s).length ≤ 1 :=
    fun s => List.get?_eq_none
  refine ⟨hmain, ?_⟩
  intro w p st s hconn hbus hlen
  have hstrip : stripType s = none := (hmain s).mpr hlen
  have hboot : bootIsFinished w.bootConnOk w.mgrBus = .crash := by
    simp [bootIsFinished, getManagerProp, hconn, hbus, hstrip]
  simp [Gather, hboot]

def worldNoSpace : World :=
  ⟨true, true, fun _ => .ok "12345", fun _ _ => .error "io", .error "io"⟩

theorem stripType_crash_characterization_witness :
    stripType "12345" = none ∧ (Gather worldNoSpace false initialState).crashed = true :=
  ⟨(stripType_crash_characterization.1 "12345").mpr (by decide),
   stripType_crash_characterization.2 worldNoSpace false initialState "12345" rfl rfl
     (by decide)⟩

theorem gather_state_map (w : World) (p : Bool) (st : PluginState) :
    (Gather w p st).state.managerProps = st.managerProps ∨
    (Gather w p st).state.managerProps =
      (postAllManagerProps w.mgrBus managerPropNames st.managerProps).map := by
  simp only [Gather]
  repeat any_goals split
  all_goals first | exact Or.inl rfl | exact Or.inr rfl

theorem reachable_userspace_isSome {st : PluginState} (h : Reachable st) :
    (st.managerProps "UserspaceTimestampMonotonic").isSome := by
  induction h with
  | init => decide
  | step w p st hr ih =>
    rcases gather_state_map w p st with he | he
    · rw [he]; exact ih
    · rw [he]; exact mgrPass_map_isSome ih

theorem unitPass_no_missing {ubus : UnitBus} {lr : Except String (List String)} {m : MgrMap}
    (h : (m "UserspaceTimestampMonotonic").isSome) :
    (postAllUnitTimingData ubus lr m).2.2.1 ≠ some CollectErr.missingDependency := by
  cases lr with
  | error e => simp [postAllUnitTimingData]
  | ok units =>
    cases hm : m "UserspaceTimestampMonotonic" with
    | none => rw [hm] at h; simp at h
    | some uts =>
      simp only [postAllUnitTimingData, hm]
      cases hx : parseUint64 uts with
      | none => simp
      | some v => simp

/-- C10: from any reachable package state, a tick can never return the
missing-dependency error (the key is always present in the shared map);
initially the key holds the empty string, whose parse failure is the
only absent-reference failure the unit pass can actually produce. -/
theorem missingDependency_unreachable (st : PluginState) (w : World) (p : Bool)
    (h : Reachable st) :
    (Gather w p st).retErr ≠ some CollectErr.missingDependency ∧
    initialState.managerProps "UserspaceTimestampMonotonic" = some "" ∧
    (∀ (ubus : UnitBus) (units : List String),
      postAllUnitTimingData ubus (.ok units) initialState.managerProps =
        ([], [""], some (CollectErr.userTsParseErr ""), false)) := by
  refine ⟨?_, by decide, ?_⟩
  · have hk := reachable_userspace_isSome h
    have hk2 : (((postAllManagerProps w.mgrBus managerPropNames
        st.managerProps).map) "UserspaceTimestampMonotonic").isSome :=
      mgrPass_map_isSome hk
    have hnm := @unitPass_no_missing w.unitBus w.listResult _ hk2
    simp only [Gather]
    repeat any_goals split
    all_goals intro hq
    all_goals cases hq
    all_goals exact hnm (by assumption)
  · intro ubus units
    have h1 : initialState.managerProps "UserspaceTimestampMonotonic" = some "" := by decide
    have h2 : parseUint64 "" = none := by decide
    simp only [postAllUnitTimingData, h1, h2]

theorem missingDependency_unreachable_witness :
    (Gather worldDown false initialState).retErr ≠ some CollectErr.missingDependency ∧
    initialState.managerProps "UserspaceTimestampMonotonic" = some "" ∧
    (∀ (ubus : UnitBus) (units : List String),
      postAllUnitTimingData ubus (.ok units) initialState.managerProps =
        ([], [""], some (CollectErr.userTsParseErr ""), false)) :=
  missingDependency_unreachable initialState worldDown false Reachable.init
